import Mathlib

/-
Shallow embedding of the dbsync synchronization engine
(source files: src/dbsync/updown.py and src/dbsync/__main__.py).

The Python module updown.py binds, at module level, only the names listed
in moduleToplevelNames below (its import statements are: os, posixpath,
logging, time, contextlib, datetime.datetime, threading.Thread, dropbox,
watchdog.events.PatternMatchingEventHandler).  Name lookups performed at
run time are modelled through that namespace: looking up a name that is
not bound raises NameError, exactly as in Python.

Machine-independent conventions of the deployment (a Linux container):
os.path.sep is the forward slash, so os.path.join and posixpath.join
coincide, and subfolder.replace(os.path.sep, sep-slash) maps each '/'
character to '/'.

File payloads are modelled by their byte counts: f.read(n) from position
pos of a file of file_size bytes returns min n (file_size - pos) bytes and
advances the position by that amount.  Remote calls are recorded in a
trace; a script of per-call outcomes models which remote calls the server
rejects with an ApiError.
-/

namespace DbSync

/-- Components of a Python datetime value as returned by datetime.now(). -/
structure PyDateTime where
  year : Nat
  month : Nat
  day : Nat
  hour : Nat
  minute : Nat
  second : Nat
deriving DecidableEq

/-- Two decimal digits of n (zero padded), as strftime renders a
two-digit field such as the month.  Exact for the ranges datetime
produces (all two-digit fields are below 100). -/
def pad2Chars (n : Nat) : List Char :=
  [Nat.digitChar (n / 10 % 10), Nat.digitChar (n % 10)]

/-- Four decimal digits of n (zero padded), as strftime renders the year.
Exact for years below 10000, the range datetime.now() produces. -/
def pad4Chars (n : Nat) : List Char :=
  [Nat.digitChar (n / 1000 % 10), Nat.digitChar (n / 100 % 10),
   Nat.digitChar (n / 10 % 10), Nat.digitChar (n % 10)]

/-- Characters of strftime with the format YYYY-MM-DD_HH-MM-SS
(updown.py line 64). -/
def strftimeTimestampChars (t : PyDateTime) : List Char :=
  pad4Chars t.year ++ '-' :: pad2Chars t.month ++ '-' :: pad2Chars t.day ++
    '_' :: pad2Chars t.hour ++ '-' :: pad2Chars t.minute ++ '-' :: pad2Chars t.second

/-- strftime with the format YYYY-MM-DD_HH-MM-SS. -/
def strftimeTimestamp (t : PyDateTime) : String :=
  String.mk (strftimeTimestampChars t)

/-- strftime with the format YYYY (updown.py line 65). -/
def strftimeYear (t : PyDateTime) : String :=
  String.mk (pad4Chars t.year)

/-- strftime with the format MM (updown.py line 66). -/
def strftimeMonth (t : PyDateTime) : String :=
  String.mk (pad2Chars t.month)

/-- One step of posixpath.join: join the accumulated path with one more
component.  A component that begins with '/' restarts the path; otherwise
a '/' separator is inserted unless the accumulated path is empty or
already ends with '/'. -/
def pyJoinAcc (acc part : String) : String :=
  if part.data.head? = some '/' then part
  else if acc.data.isEmpty || acc.data.getLast? == some '/' then acc ++ part
  else acc ++ "/" ++ part

/-- posixpath.join of a first component and the remaining components. -/
def pyPosixJoin (first : String) (rest : List String) : String :=
  rest.foldl pyJoinAcc first

/-- Python run-time errors relevant to the engine. -/
inductive PyError where
  | nameError
  | apiError
  | osError
deriving DecidableEq

/-- What the local filesystem holds at a path, for the ignore-file lookup:
a readable regular file with its lines (f.read().splitlines()), a
directory, or nothing. -/
inductive FsEntry where
  | file (lines : List String)
  | dir
  | absent
deriving DecidableEq

/-- The names bound at the top level of the module updown.py: its import
statements (lines 23-31) and its module-level definitions (lines 34-40).
Neither re nor fnmatch is among them. -/
def moduleToplevelNames : List String :=
  ["os", "posixpath", "logging", "time", "contextlib", "datetime", "Thread",
   "dropbox", "PatternMatchingEventHandler", "logger", "CHUNK_SIZE",
   "IGNORE_PATTERNS", "UpDown"]

/-- Whether a name lookup in the module namespace succeeds. -/
def nameBound (n : String) : Bool :=
  moduleToplevelNames.contains n

/-- The initial excludes value of loadDropboxIgnore: the raw regex "$."
(updown.py line 87), which matches no string. -/
def defaultExcludes : String :=
  "$."

/-- Whether the regex anchor "$" matches at position 0 of s: it does when
position 0 is the end of the string or just before a trailing newline. -/
def dollarAtStart (s : String) : Bool :=
  s.data == [] || s.data == ['\n']

/-- Whether the regex "." matches at position 0 of s: it consumes one
character there, any character except a newline. -/
def dotAtStart (s : String) : Bool :=
  match s.data.head? with
  | none => false
  | some c => c != '\n'

/-- re.match of the regex "$." against s: the match is anchored at
position 0, where "$" must hold (consuming nothing) and then "." must
consume one character. -/
def reMatchDollarDot (s : String) : Bool :=
  dollarAtStart s && dotAtStart s

/-- Evaluating the expression fnmatch.translate(x): Python first resolves
the name fnmatch in the enclosing namespaces; no import of updown.py binds
it, so the lookup raises NameError before any pattern is translated.  The
value of the ok branch is never produced (see nameBound). -/
def evalFnmatchTranslate (x : String) : Except PyError String :=
  if nameBound "fnmatch" then Except.ok x else Except.error PyError.nameError

/-- The path the code reads the ignore file from:
os.path.join(self.folder, self.dropboxignore), updown.py line 88. -/
def ignoreFileLocation (folder dropboxignore : String) : String :=
  pyPosixJoin folder [dropboxignore]

/-- UpDown.loadDropboxIgnore (updown.py lines 85-97): start from the
match-nothing regex; read the lines of the file at
os.path.join(self.folder, self.dropboxignore) when that path exists and is
a regular file; when the line list is nonempty, build the joined regex
from fnmatch.translate of each line, which raises NameError. -/
def loadDropboxIgnore (readFs : String → FsEntry) (folder dropboxignore : String) :
    Except PyError String :=
  let path := ignoreFileLocation folder dropboxignore
  let ignore_files : List String :=
    match readFs path with
    | FsEntry.file lines => lines
    | _ => []
  if ignore_files.isEmpty then Except.ok defaultExcludes
  else
    match ignore_files.mapM evalFnmatchTranslate with
    | Except.error e => Except.error e
    | Except.ok regexes => Except.ok (String.intercalate "|" regexes)

/-- The attributes of an UpDown object that the engine reads after
construction (updown.py lines 46-69). -/
structure UpDownState where
  folder : String
  dropboxignore : String
  excludes : String
  timestamp : String
  year : String
  month : String
  db_folder : String
deriving DecidableEq

/-- The state UpDown.__init__ stores when loadDropboxIgnore returns excl:
timestamp, year and month are rendered from three successive
datetime.now() readings t1, t2, t3 (updown.py lines 64-66), and db_folder
is posixpath.join of '/', year, month and timestamp (line 69). -/
def mkState (folder dropboxignore excl : String) (t1 t2 t3 : PyDateTime) : UpDownState :=
  { folder := folder
    dropboxignore := dropboxignore
    excludes := excl
    timestamp := strftimeTimestamp t1
    year := strftimeYear t2
    month := strftimeMonth t3
    db_folder := pyPosixJoin "/" [strftimeYear t2, strftimeMonth t3, strftimeTimestamp t1] }

namespace UpDown

/-- UpDown.__init__ (updown.py lines 42-69): loadDropboxIgnore runs first
(line 58) and any error it raises aborts the construction; otherwise the
date components are taken from three successive clock readings. -/
def init (folder dropboxignore : String) (readFs : String → FsEntry)
    (t1 t2 t3 : PyDateTime) : Except PyError UpDownState :=
  match loadDropboxIgnore readFs folder dropboxignore with
  | Except.error e => Except.error e
  | Except.ok excl => Except.ok (mkState folder dropboxignore excl t1 t2 t3)

end UpDown

/-- os.path.sep of the deployment platform. -/
def pathSep : Char := '/'

/-- subfolder.replace(os.path.sep, the slash string): with the posix
separator this maps each separator character to '/'. -/
def replaceSep (s : String) : String :=
  String.mk (s.data.map fun c => if c = pathSep then '/' else c)

namespace UpDown

/-- UpDown.normalizePath (updown.py lines 99-103): drop the empty parts
(filter(None, parts)) and join the rest with posixpath.join.  Python's
join requires at least one argument; the empty-parts case returns the
junk value "" here and is unreachable because db_folder is never empty
(proved with claim C7). -/
def normalizePath (s : UpDownState) (subfolder name : String) : String :=
  let parts := [s.db_folder, replaceSep subfolder, name]
  match parts.filter (fun p => p != "") with
  | [] => ""
  | p :: ps => pyPosixJoin p ps

end UpDown

/-- CHUNK_SIZE, updown.py line 36. -/
def CHUNK_SIZE : Nat := 4 * 1024 * 1024

theorem chunk_size_eq : CHUNK_SIZE = 4194304 := rfl

/-- dropbox.files.WriteMode. -/
inductive WriteMode where
  | add
  | overwrite
deriving DecidableEq

/-- One remote API call issued by UpDown.upload, with the byte count of
the payload it carries and the arguments relevant to the engine. -/
inductive Call where
  | createFolder (path : String)
  | filesUpload (len : Nat) (path : String) (mode : WriteMode) (clientModified : Nat)
  | sessionStart (len : Nat)
  | sessionAppend (len : Nat) (offset : Nat)
  | sessionFinish (len : Nat) (offset : Nat) (path : String)
deriving DecidableEq

/-- How one run of UpDown.upload ends: a receipt (the res object), the
value None after a caught ApiError, an ApiError that escapes upload, or
an OSError from the local filesystem that escapes upload. -/
inductive UploadResult where
  | receipt
  | returnedNone
  | apiErrorRaised
  | osErrorRaised
deriving DecidableEq

/-- The remote calls one run of UpDown.upload issued, in order, and how
the run ended. -/
structure UploadRun where
  calls : List Call
  result : UploadResult
deriving DecidableEq

/-- What os.stat sees at the local path handed to upload: a directory or
a regular file of size bytes, each with a modification time in whole
seconds; a missing (or unreadable) path is the none case of the Option. -/
inductive LocalEntry where
  | dirEntry (mtime : Nat)
  | fileEntry (size : Nat) (mtime : Nat)
deriving DecidableEq

/-- The while loop of the chunked branch of UpDown.upload (lines 147-161),
entered after files_upload_session_start consumed the first chunk.  pos is
f.tell(), which also equals cursor.offset at each loop entry; idx numbers
the remote calls of this upload from 0 (the start call), so the loop's
first call has idx 1.  script gives each call's outcome; fuel bounds the
iteration count and is always sufficient at the call site (see the
chunkLoop lemmas).  The session-finish call sits in a try/except that
catches ApiError and returns None; the session-append call is not guarded,
so its ApiError escapes. -/
def chunkLoop (script : Nat → Bool) (path : String) (fileSize : Nat) :
    Nat → Nat → Nat → List Call × UploadResult
  | idx, pos, fuel + 1 =>
    if pos < fileSize then
      if fileSize - pos ≤ CHUNK_SIZE then
        let c := Call.sessionFinish (min CHUNK_SIZE (fileSize - pos)) pos path
        if script idx then ([c], UploadResult.receipt)
        else ([c], UploadResult.returnedNone)
      else
        let c := Call.sessionAppend (min CHUNK_SIZE (fileSize - pos)) pos
        if script idx then
          let r := chunkLoop script path fileSize (idx + 1) (pos + CHUNK_SIZE) fuel
          (c :: r.1, r.2)
        else ([c], UploadResult.apiErrorRaised)
    else ([], UploadResult.receipt)
  | _, _, 0 => ([], UploadResult.receipt)

namespace UpDown

/-- UpDown.upload (updown.py lines 105-162).  The Dropbox path and the
write mode are computed first; os.path.getmtime then stats the local path
and raises OSError when nothing is there, before any remote call.  A
directory issues one create-folder call whose ApiError is caught (return
None).  A file of at most CHUNK_SIZE bytes issues one files_upload call
whose ApiError is caught.  A larger file issues files_upload_session_start
with the first chunk - outside any try/except, so its ApiError escapes -
and then runs the chunked loop. -/
def upload (script : Nat → Bool) (stat : Option LocalEntry)
    (s : UpDownState) (subfolder name : String) (overwrite : Bool) : UploadRun :=
  let path := normalizePath s subfolder name
  let mode := if overwrite then WriteMode.overwrite else WriteMode.add
  match stat with
  | none => { calls := [], result := UploadResult.osErrorRaised }
  | some (LocalEntry.dirEntry _) =>
    let c := Call.createFolder path
    if script 0 then { calls := [c], result := UploadResult.receipt }
    else { calls := [c], result := UploadResult.returnedNone }
  | some (LocalEntry.fileEntry size mtime) =>
    if size ≤ CHUNK_SIZE then
      let c := Call.filesUpload size path mode mtime
      if script 0 then { calls := [c], result := UploadResult.receipt }
      else { calls := [c], result := UploadResult.returnedNone }
    else
      let start := Call.sessionStart (min CHUNK_SIZE size)
      if script 0 then
        let r := chunkLoop script path size 1 CHUNK_SIZE (size / CHUNK_SIZE + 2)
        { calls := start :: r.1, result := r.2 }
      else { calls := [start], result := UploadResult.apiErrorRaised }

end UpDown

/-- The payload byte count of a call (0 for create-folder, which carries
no file bytes). -/
def callLen : Call → Nat
  | Call.createFolder _ => 0
  | Call.filesUpload n _ _ _ => n
  | Call.sessionStart n => n
  | Call.sessionAppend n _ => n
  | Call.sessionFinish n _ _ => n

/-- Whether a call is a session-append call. -/
def isAppendCall : Call → Bool
  | Call.sessionAppend _ _ => true
  | _ => false

/-- Whether a call is a session-start call. -/
def isStartCall : Call → Bool
  | Call.sessionStart _ => true
  | _ => false

/-- Whether a call is a session-finish call. -/
def isFinishCall : Call → Bool
  | Call.sessionFinish _ _ _ => true
  | _ => false

/-- The number of session-append calls in a trace. -/
def countAppends (l : List Call) : Nat :=
  l.countP isAppendCall

/-- The number of session-start calls in a trace. -/
def countStarts (l : List Call) : Nat :=
  l.countP isStartCall

/-- The number of session-finish calls in a trace. -/
def countFinishes (l : List Call) : Nat :=
  l.countP isFinishCall

/-- The successive values of the file position f.tell() along a trace,
starting from pos: each call's read advances the position by the call's
payload length. -/
def tellTrace (pos : Nat) : List Call → List Nat
  | [] => [pos]
  | c :: cs => pos :: tellTrace (pos + callLen c) cs

/-- The script under which every remote call succeeds. -/
def allOk : Nat → Bool := fun _ => true

/-- An upload request the watch-mode handlers pass to upload. -/
structure UploadRequest where
  srcPath : String
  subfolder : String
  name : String
  overwrite : Bool
deriving DecidableEq

/-- Split a character list at its last '/', Python style: the first part
is p up to and including the last '/', the second the rest; with no '/'
the first part is empty. -/
def splitLastSlash (l : List Char) : List Char × List Char :=
  if l.contains '/' then
    let tail := (l.reverse.takeWhile (fun c => c != '/')).reverse
    (l.take (l.length - tail.length), tail)
  else ([], l)

/-- Strip trailing '/' characters. -/
def rstripSlash (l : List Char) : List Char :=
  (l.reverse.dropWhile (fun c => c == '/')).reverse

/-- os.path.dirname: the head of the split at the last '/', with trailing
slashes stripped unless the head is empty or all slashes. -/
def dirname (s : String) : String :=
  let h := (splitLastSlash s.data).1
  if h.isEmpty || h.all (fun c => c == '/') then String.mk h
  else String.mk (rstripSlash h)

/-- os.path.basename: the tail of the split at the last '/'. -/
def basename (s : String) : String :=
  String.mk (splitLastSlash s.data).2

/-- The nonempty '/';-separated components of a path. -/
def splitParts (s : String) : List String :=
  (s.split (fun c => c = '/')).filter (fun p => p != "")

/-- The length of the common first run of two component lists. -/
def commonLen : List String → List String → Nat
  | a :: as, b :: bs => if a = b then 1 + commonLen as bs else 0
  | _, _ => 0

/-- os.path.relpath modelled for absolute inputs (the daemon hands it the
event path's directory and the configured root, and abspath leaves an
absolute path unchanged): climb out of the uncommon part of start with
'..' components, then descend into the uncommon part of path. -/
def osRelpath (path start : String) : String :=
  let pl := splitParts path
  let sl := splitParts start
  let i := commonLen sl pl
  let rel := List.replicate (sl.length - i) ".." ++ pl.drop i
  if rel.isEmpty then "." else String.intercalate "/" rel

/-- UpDown.getFolderAndFile (updown.py lines 187-192). -/
def getFolderAndFile (folder srcPath : String) : String × String :=
  let abs_path := dirname srcPath
  let subfolder := osRelpath abs_path folder
  let subfolder := if subfolder = "." then "" else subfolder
  (subfolder, basename srcPath)

/-- Evaluating re.match(self.excludes, name): Python first resolves the
name re, which no import of updown.py binds, so the lookup raises
NameError before any matching happens.  The ok branch gives the match
semantics for excludes equal to the match-nothing regex, the only
excludes value a successfully constructed UpDown can carry (see
loadDropboxIgnore: every other branch raises). -/
def evalReMatch (excludes name : String) : Except PyError Bool :=
  if nameBound "re" then
    Except.ok (if excludes = defaultExcludes then reMatchDollarDot name else false)
  else Except.error PyError.nameError

namespace UpDown

/-- UpDown.on_created (updown.py lines 174-178): compute subfolder and
name from the event path, test re.match(self.excludes, name), and when it
does not match, call upload with the default overwrite=False.  The some
payload is the upload request issued; none means no upload. -/
def on_created (s : UpDownState) (srcPath : String) :
    Except PyError (Option UploadRequest) :=
  let fn := getFolderAndFile s.folder srcPath
  match evalReMatch s.excludes fn.2 with
  | Except.error e => Except.error e
  | Except.ok true => Except.ok none
  | Except.ok false => Except.ok (some ⟨srcPath, fn.1, fn.2, false⟩)

/-- UpDown.on_modified (updown.py lines 180-185): directory events are
dropped; otherwise as on_created but with overwrite=True. -/
def on_modified (s : UpDownState) (srcPath : String) (isDirectory : Bool) :
    Except PyError (Option UploadRequest) :=
  if isDirectory then Except.ok none
  else
    let fn := getFolderAndFile s.folder srcPath
    match evalReMatch s.excludes fn.2 with
    | Except.error e => Except.error e
    | Except.ok true => Except.ok none
    | Except.ok false => Except.ok (some ⟨srcPath, fn.1, fn.2, true⟩)

end UpDown

/-- The construction the entry point performs (dbsync/__main__.py lines
111-112): UpDown(appKey, appSecret, refreshToken, folder, rootdir, ...),
so the positional parameter dropboxignore - whose default is the file
name ".dropboxignore" - receives the local root directory, and the
parameter folder receives the remote folder name. -/
def mainInit (remoteFolder rootdir : String) (readFs : String → FsEntry)
    (t1 t2 t3 : PyDateTime) : Except PyError UpDownState :=
  UpDown.init remoteFolder rootdir readFs t1 t2 t3

/-- A fixed clock reading used by the concrete scenarios. -/
def t0 : PyDateTime := ⟨2024, 5, 17, 12, 30, 45⟩

/-- A session whose three construction clock readings coincide. -/
def sess0 : UpDownState := mkState "" "/data" defaultExcludes t0 t0 t0

/-- A clock reading just before a year boundary. -/
def tDec : PyDateTime := ⟨2024, 12, 31, 23, 59, 59⟩

/-- A clock reading just after that year boundary. -/
def tJan : PyDateTime := ⟨2025, 1, 1, 0, 0, 0⟩

/-- The script under which every remote call fails. -/
def failAll : Nat → Bool := fun _ => false

/-- The script under which exactly the i-th remote call fails. -/
def failAt (i : Nat) : Nat → Bool := fun j => j != i

/-- A filesystem with nothing on it. -/
def fsAbsent : String → FsEntry := fun _ => FsEntry.absent

/-- A filesystem holding a one-pattern ignore file at /data/.dropboxignore
inside the root directory /data. -/
def fsC8 : String → FsEntry := fun p =>
  if p = "/data/.dropboxignore" then FsEntry.file ["*.txt"]
  else if p = "/data" then FsEntry.dir
  else FsEntry.absent

/- Helper lemmas about the embedded definitions. -/

theorem re_unbound : nameBound "re" = false := rfl

theorem fnmatch_unbound : nameBound "fnmatch" = false := rfl

/-- The regex "$." matches no string: "$" holds at position 0 only for the
empty string or a lone newline, and "." then needs a non-newline character
at position 0, which neither has. -/
theorem reMatchDollarDot_false (s : String) : reMatchDollarDot s = false := by
  unfold reMatchDollarDot dollarAtStart dotAtStart
  cases h : s.data with
  | nil => simp
  | cons c rest =>
    by_cases hc : c = '\n'
    · subst hc
      simp
    · simp [hc]

theorem digitChar_lt_ten : ∀ d, d < 10 → Nat.digitChar d ≠ '/' := by decide

theorem mod_ten_lt (n : Nat) : n % 10 < 10 := Nat.mod_lt n (by norm_num)

theorem pad4_head_ne_slash (n : Nat) : (pad4Chars n).head? ≠ some '/' := by
  rw [pad4Chars]
  simp only [List.head?_cons, ne_eq, Option.some.injEq]
  exact digitChar_lt_ten _ (mod_ten_lt _)

theorem pad2_head_ne_slash (n : Nat) : (pad2Chars n).head? ≠ some '/' := by
  rw [pad2Chars]
  simp only [List.head?_cons, ne_eq, Option.some.injEq]
  exact digitChar_lt_ten _ (mod_ten_lt _)

theorem ts_head_ne_slash (t : PyDateTime) :
    (strftimeTimestampChars t).head? ≠ some '/' := by
  have h : (strftimeTimestampChars t).head? = some (Nat.digitChar (t.year / 1000 % 10)) := rfl
  rw [h]
  simp only [ne_eq, Option.some.injEq]
  exact digitChar_lt_ten _ (mod_ten_lt _)

theorem pyJoinAcc_absolute (acc part : String) (h : part.data.head? = some '/') :
    pyJoinAcc acc part = part := by
  unfold pyJoinAcc
  rw [if_pos h]

theorem pyJoinAcc_slashEnd (acc part : String) (h1 : part.data.head? ≠ some '/')
    (h2 : acc.data.getLast? = some '/') :
    pyJoinAcc acc part = acc ++ part := by
  unfold pyJoinAcc
  rw [if_neg h1, if_pos (by simp [h2])]

theorem pyJoinAcc_sep (acc part : String) (h1 : part.data.head? ≠ some '/')
    (h2 : acc.data ≠ []) (h3 : acc.data.getLast? ≠ some '/') :
    pyJoinAcc acc part = acc ++ "/" ++ part := by
  unfold pyJoinAcc
  rw [if_neg h1, if_neg (by simp [List.isEmpty_iff, h2, h3])]

/-- The shape of db_folder: posixpath.join of '/', year, month, timestamp
inserts exactly one separator before each component, because each
component begins and ends with a decimal digit. -/
theorem mkState_db_data (folder di excl : String) (t1 t2 t3 : PyDateTime) :
    (mkState folder di excl t1 t2 t3).db_folder.data =
      '/' :: pad4Chars t2.year ++ '/' :: pad2Chars t3.month ++
        '/' :: strftimeTimestampChars t1 := by
  have hyh : (strftimeYear t2).data.head? ≠ some '/' := pad4_head_ne_slash t2.year
  have hmh : (strftimeMonth t3).data.head? ≠ some '/' := pad2_head_ne_slash t3.month
  have hth : (strftimeTimestamp t1).data.head? ≠ some '/' := ts_head_ne_slash t1
  have hne1 : ("/" ++ strftimeYear t2).data ≠ [] := by
    simp [String.data_append]
  have hlast1 : ("/" ++ strftimeYear t2).data.getLast? ≠ some '/' := by
    have h : ("/" ++ strftimeYear t2).data.getLast? =
        some (Nat.digitChar (t2.year % 10)) := rfl
    rw [h]
    simp only [ne_eq, Option.some.injEq]
    exact digitChar_lt_ten _ (mod_ten_lt _)
  have hne2 : ("/" ++ strftimeYear t2 ++ "/" ++ strftimeMonth t3).data ≠ [] := by
    simp [String.data_append]
  have hlast2 : ("/" ++ strftimeYear t2 ++ "/" ++ strftimeMonth t3).data.getLast? ≠
      some '/' := by
    have h : ("/" ++ strftimeYear t2 ++ "/" ++ strftimeMonth t3).data.getLast? =
        some (Nat.digitChar (t3.month % 10)) := rfl
    rw [h]
    simp only [ne_eq, Option.some.injEq]
    exact digitChar_lt_ten _ (mod_ten_lt _)
  have hs : ("/" : String).data.getLast? = some '/' := rfl
  show (pyPosixJoin "/" [strftimeYear t2, strftimeMonth t3, strftimeTimestamp t1]).data = _
  unfold pyPosixJoin
  simp only [List.foldl]
  rw [pyJoinAcc_slashEnd "/" (strftimeYear t2) hyh hs,
    pyJoinAcc_sep ("/" ++ strftimeYear t2) (strftimeMonth t3) hmh hne1 hlast1,
    pyJoinAcc_sep ("/" ++ strftimeYear t2 ++ "/" ++ strftimeMonth t3)
      (strftimeTimestamp t1) hth hne2 hlast2]
  rfl

/-- Joining one more component that does not begin with '/' only appends
characters, so the accumulated path stays a prefix of the result. -/
theorem pyJoinAcc_keeps_pre (acc part : String) (h : part.data.head? ≠ some '/') :
    acc.data <+: (pyJoinAcc acc part).data := by
  unfold pyJoinAcc
  rw [if_neg h]
  split
  · rw [String.data_append]
    exact List.prefix_append _ _
  · rw [String.data_append, String.data_append, List.append_assoc]
    exact List.prefix_append _ _

/-- Folding the join over components none of which begins with '/' keeps
the starting path as a prefix. -/
theorem foldl_pyJoin_keeps_pre (parts : List String) (acc : String)
    (h : ∀ p ∈ parts, p.data.head? ≠ some '/') :
    acc.data <+: (parts.foldl pyJoinAcc acc).data := by
  induction parts generalizing acc with
  | nil => exact List.prefix_rfl
  | cons p ps ih =>
    simp only [List.foldl]
    have h1 : acc.data <+: (pyJoinAcc acc p).data :=
      pyJoinAcc_keeps_pre acc p (h p (List.mem_cons_self p ps))
    exact h1.trans (ih (pyJoinAcc acc p) (fun q hq => h q (List.mem_cons_of_mem _ hq)))

/-- One join step keeps the path absolute (or makes it absolute). -/
theorem pyJoinAcc_abs_head (acc part : String) (h : acc.data.head? = some '/') :
    (pyJoinAcc acc part).data.head? = some '/' := by
  unfold pyJoinAcc
  split
  · assumption
  · obtain ⟨r, hr⟩ : ∃ r, acc.data = '/' :: r := by
      cases hd : acc.data with
      | nil => rw [hd] at h; cases h
      | cons c cs =>
        rw [hd] at h
        simp only [List.head?_cons, Option.some.injEq] at h
        exact ⟨cs, by rw [h]⟩
    split
    · rw [String.data_append, hr]
      rfl
    · rw [String.data_append, String.data_append, hr]
      rfl

/-- Folding the join from an absolute path yields an absolute path. -/
theorem foldl_pyJoin_abs (parts : List String) (acc : String)
    (h : acc.data.head? = some '/') :
    ((parts.foldl pyJoinAcc acc)).data.head? = some '/' := by
  induction parts generalizing acc with
  | nil => exact h
  | cons p ps ih =>
    simp only [List.foldl]
    exact ih _ (pyJoinAcc_abs_head acc p h)

/-- When db_folder is nonempty, filter(None, parts) keeps it first and
normalizePath is the posix join rooted at db_folder. -/
theorem normalizePath_eq_join (s : UpDownState) (sub name : String)
    (hdb : s.db_folder ≠ "") :
    UpDown.normalizePath s sub name =
      pyPosixJoin s.db_folder ([replaceSep sub, name].filter (fun p => p != "")) := by
  unfold UpDown.normalizePath
  have h1 : (s.db_folder != "") = true := bne_iff_ne.mpr hdb
  simp only [List.filter_cons, h1, if_true]

/-- The db_folder of a constructed state is never the empty string. -/
theorem mkState_db_ne_empty (folder di excl : String) (t1 t2 t3 : PyDateTime) :
    (mkState folder di excl t1 t2 t3).db_folder ≠ "" := by
  intro h
  have h2 := congrArg String.data h
  rw [mkState_db_data] at h2
  simp at h2

/-- replaceSep maps '/' to '/', so it cannot create a leading slash. -/
theorem replaceSep_head (sub : String) (h : sub.data.head? ≠ some '/') :
    (replaceSep sub).data.head? ≠ some '/' := by
  unfold replaceSep
  show (sub.data.map _).head? ≠ some '/'
  cases hd : sub.data with
  | nil => simp
  | cons c r =>
    rw [hd] at h
    simp only [List.head?_cons, ne_eq, Option.some.injEq] at h
    simp only [List.map_cons, List.head?_cons, ne_eq, Option.some.injEq]
    rw [if_neg (by exact h)]
    exact h

/-- Paths of files observed inside one run extend the frozen db_folder:
when neither the subfolder nor the name begins with '/', the db_folder is
a prefix of the normalized path. -/
theorem normalizePath_db_pre (folder di excl : String) (t1 t2 t3 : PyDateTime)
    (sub name : String) (hsub : sub.data.head? ≠ some '/')
    (hname : name.data.head? ≠ some '/') :
    (mkState folder di excl t1 t2 t3).db_folder.data <+:
      (UpDown.normalizePath (mkState folder di excl t1 t2 t3) sub name).data := by
  rw [normalizePath_eq_join _ _ _ (mkState_db_ne_empty folder di excl t1 t2 t3)]
  apply foldl_pyJoin_keeps_pre
  intro p hp
  have hmem := (List.mem_filter.mp hp).1
  simp only [List.mem_cons, List.not_mem_nil, or_false] at hmem
  rcases hmem with h | h
  · rw [h]
    exact replaceSep_head sub hsub
  · rw [h]
    exact hname

theorem tsChars_length (t : PyDateTime) : (strftimeTimestampChars t).length = 19 := by
  simp [strftimeTimestampChars, pad4Chars, pad2Chars]

theorem db_data_length (folder di excl : String) (t1 t2 t3 : PyDateTime) :
    (mkState folder di excl t1 t2 t3).db_folder.data.length = 28 := by
  rw [mkState_db_data]
  simp [pad4Chars, pad2Chars, tsChars_length]

/-- The timestamp occupies the characters of db_folder from index 9 on. -/
theorem db_data_drop9 (folder di excl : String) (t1 t2 t3 : PyDateTime) :
    (mkState folder di excl t1 t2 t3).db_folder.data.drop 9 =
      strftimeTimestampChars t1 := by
  rw [mkState_db_data]
  have h : '/' :: pad4Chars t2.year ++ '/' :: pad2Chars t3.month ++
        '/' :: strftimeTimestampChars t1 =
      ('/' :: pad4Chars t2.year ++ '/' :: pad2Chars t3.month ++ ['/']) ++
        strftimeTimestampChars t1 := by
    simp
  rw [h]
  apply List.drop_left'
  simp [pad4Chars, pad2Chars]

/-- Two constructions whose first clock readings render different
timestamps have different db_folder prefixes. -/
theorem db_ne_of_ts_ne (f1 d1 e1 : String) (t1 t2 t3 : PyDateTime)
    (f2 d2 e2 : String) (u1 u2 u3 : PyDateTime)
    (h : strftimeTimestamp t1 ≠ strftimeTimestamp u1) :
    (mkState f1 d1 e1 t1 t2 t3).db_folder ≠ (mkState f2 d2 e2 u1 u2 u3).db_folder := by
  intro he
  apply h
  have hd := congrArg (fun l => List.drop 9 l) (congrArg String.data he)
  simp only [db_data_drop9] at hd
  exact congrArg String.mk hd

theorem chunk_pos : 0 < CHUNK_SIZE := by decide

/-- Splitting off one full chunk shifts the remaining-chunk count by one. -/
theorem div_pred_sub_chunk (r : Nat) (h : CHUNK_SIZE < r) :
    (r - 1) / CHUNK_SIZE = (r - CHUNK_SIZE - 1) / CHUNK_SIZE + 1 := by
  rw [Nat.sub_right_comm, Nat.div_eq_sub_div chunk_pos (by omega)]

/-- A last (possibly partial) chunk contributes no further appends. -/
theorem div_pred_zero (r : Nat) (h0 : 0 < r) (h : r ≤ CHUNK_SIZE) :
    (r - 1) / CHUNK_SIZE = 0 :=
  Nat.div_eq_of_lt (by omega)

/-- Dropping one full chunk leaves the final-chunk length unchanged. -/
theorem mod_pred_sub_chunk (r : Nat) (h : CHUNK_SIZE < r) :
    (r - 1) % CHUNK_SIZE = (r - CHUNK_SIZE - 1) % CHUNK_SIZE := by
  rw [Nat.mod_eq_sub_mod (show CHUNK_SIZE ≤ r - 1 by omega), Nat.sub_right_comm]

theorem getLast_cons_ne (a : Call) (l : List Call) (h : l ≠ []) :
    (a :: l).getLast? = l.getLast? := by
  cases l with
  | nil => exact absurd rfl h
  | cons b t => exact List.getLast?_cons_cons

/-- With every remote call succeeding and enough fuel, the chunked loop
ends with the receipt of the finish call. -/
theorem chunkLoop_ok_result (path : String) (fileSize : Nat) :
    ∀ fuel idx pos, pos < fileSize → fileSize - pos ≤ fuel * CHUNK_SIZE →
    (chunkLoop allOk path fileSize idx pos fuel).2 = UploadResult.receipt := by
  intro fuel
  induction fuel with
  | zero =>
    intro idx pos h1 h2
    rw [Nat.zero_mul] at h2
    omega
  | succ fuel ih =>
    intro idx pos h1 h2
    rw [Nat.succ_mul] at h2
    simp only [chunkLoop]
    rw [if_pos h1]
    by_cases hsmall : fileSize - pos ≤ CHUNK_SIZE
    · rw [if_pos hsmall, if_pos (show allOk idx = true from rfl)]
    · rw [if_neg hsmall, if_pos (show allOk idx = true from rfl)]
      have hpos : CHUNK_SIZE < fileSize - pos := Nat.lt_of_not_le hsmall
      exact ih (idx + 1) (pos + CHUNK_SIZE) (by omega) (by omega)

/-- The successful chunked loop issues one append per full chunk beyond
the first remaining one. -/
theorem chunkLoop_ok_appends (path : String) (fileSize : Nat) :
    ∀ fuel idx pos, pos < fileSize → fileSize - pos ≤ fuel * CHUNK_SIZE →
    countAppends (chunkLoop allOk path fileSize idx pos fuel).1 =
      (fileSize - pos - 1) / CHUNK_SIZE := by
  intro fuel
  induction fuel with
  | zero =>
    intro idx pos h1 h2
    rw [Nat.zero_mul] at h2
    omega
  | succ fuel ih =>
    intro idx pos h1 h2
    rw [Nat.succ_mul] at h2
    simp only [chunkLoop]
    rw [if_pos h1]
    by_cases hsmall : fileSize - pos ≤ CHUNK_SIZE
    · rw [if_pos hsmall, if_pos (show allOk idx = true from rfl)]
      rw [div_pred_zero (fileSize - pos) (by omega) hsmall]
      rfl
    · rw [if_neg hsmall, if_pos (show allOk idx = true from rfl)]
      have hpos : CHUNK_SIZE < fileSize - pos := Nat.lt_of_not_le hsmall
      have hrec := ih (idx + 1) (pos + CHUNK_SIZE) (by omega) (by omega)
      show countAppends (Call.sessionAppend (min CHUNK_SIZE (fileSize - pos)) pos ::
        (chunkLoop allOk path fileSize (idx + 1) (pos + CHUNK_SIZE) fuel).1) = _
      rw [countAppends, List.countP_cons, ← countAppends, hrec]
      rw [show isAppendCall (Call.sessionAppend (min CHUNK_SIZE (fileSize - pos)) pos) =
        true from rfl]
      rw [if_pos rfl, Nat.sub_add_eq]
      exact (div_pred_sub_chunk (fileSize - pos) hpos).symm

/-- The successful chunked loop issues no start call. -/
theorem chunkLoop_ok_starts (path : String) (fileSize : Nat) :
    ∀ fuel idx pos, pos < fileSize → fileSize - pos ≤ fuel * CHUNK_SIZE →
    countStarts (chunkLoop allOk path fileSize idx pos fuel).1 = 0 := by
  intro fuel
  induction fuel with
  | zero =>
    intro idx pos h1 h2
    rw [Nat.zero_mul] at h2
    omega
  | succ fuel ih =>
    intro idx pos h1 h2
    rw [Nat.succ_mul] at h2
    simp only [chunkLoop]
    rw [if_pos h1]
    by_cases hsmall : fileSize - pos ≤ CHUNK_SIZE
    · rw [if_pos hsmall, if_pos (show allOk idx = true from rfl)]
      rfl
    · rw [if_neg hsmall, if_pos (show allOk idx = true from rfl)]
      have hpos : CHUNK_SIZE < fileSize - pos := Nat.lt_of_not_le hsmall
      have hrec := ih (idx + 1) (pos + CHUNK_SIZE) (by omega) (by omega)
      show countStarts (Call.sessionAppend (min CHUNK_SIZE (fileSize - pos)) pos ::
        (chunkLoop allOk path fileSize (idx + 1) (pos + CHUNK_SIZE) fuel).1) = 0
      rw [countStarts, List.countP_cons, ← countStarts, hrec]
      rfl

/-- The successful chunked loop issues exactly one finish call. -/
theorem chunkLoop_ok_finishes (path : String) (fileSize : Nat) :
    ∀ fuel idx pos, pos < fileSize → fileSize - pos ≤ fuel * CHUNK_SIZE →
    countFinishes (chunkLoop allOk path fileSize idx pos fuel).1 = 1 := by
  intro fuel
  induction fuel with
  | zero =>
    intro idx pos h1 h2
    rw [Nat.zero_mul] at h2
    omega
  | succ fuel ih =>
    intro idx pos h1 h2
    rw [Nat.succ_mul] at h2
    simp only [chunkLoop]
    rw [if_pos h1]
    by_cases hsmall : fileSize - pos ≤ CHUNK_SIZE
    · rw [if_pos hsmall, if_pos (show allOk idx = true from rfl)]
      rfl
    · rw [if_neg hsmall, if_pos (show allOk idx = true from rfl)]
      have hpos : CHUNK_SIZE < fileSize - pos := Nat.lt_of_not_le hsmall
      have hrec := ih (idx + 1) (pos + CHUNK_SIZE) (by omega) (by omega)
      show countFinishes (Call.sessionAppend (min CHUNK_SIZE (fileSize - pos)) pos ::
        (chunkLoop allOk path fileSize (idx + 1) (pos + CHUNK_SIZE) fuel).1) = 1
      rw [countFinishes, List.countP_cons, ← countFinishes, hrec]
      rfl

/-- Every append call of the successful chunked loop carries one full
chunk of CHUNK_SIZE bytes. -/
theorem chunkLoop_ok_append_lens (path : String) (fileSize : Nat) :
    ∀ fuel idx pos, pos < fileSize → fileSize - pos ≤ fuel * CHUNK_SIZE →
    ∀ c ∈ (chunkLoop allOk path fileSize idx pos fuel).1,
      isAppendCall c = true → callLen c = CHUNK_SIZE := by
  intro fuel
  induction fuel with
  | zero =>
    intro idx pos h1 h2
    rw [Nat.zero_mul] at h2
    omega
  | succ fuel ih =>
    intro idx pos h1 h2
    rw [Nat.succ_mul] at h2
    simp only [chunkLoop]
    rw [if_pos h1]
    by_cases hsmall : fileSize - pos ≤ CHUNK_SIZE
    · rw [if_pos hsmall, if_pos (show allOk idx = true from rfl)]
      intro c hc hac
      rw [List.mem_singleton] at hc
      rw [hc] at hac
      cases hac
    · rw [if_neg hsmall, if_pos (show allOk idx = true from rfl)]
      have hpos : CHUNK_SIZE < fileSize - pos := Nat.lt_of_not_le hsmall
      intro c hc hac
      have hc2 : c ∈ Call.sessionAppend (min CHUNK_SIZE (fileSize - pos)) pos ::
          (chunkLoop allOk path fileSize (idx + 1) (pos + CHUNK_SIZE) fuel).1 := hc
      rw [List.mem_cons] at hc2
      rcases hc2 with hc2 | hc2
      · rw [hc2]
        show min CHUNK_SIZE (fileSize - pos) = CHUNK_SIZE
        exact Nat.min_eq_left (Nat.le_of_lt hpos)
      · exact ih (idx + 1) (pos + CHUNK_SIZE) (by omega) (by omega) c hc2 hac

/-- The successful chunked loop issues one call per chunk after the
first: its trace length is the append count plus the finish call. -/
theorem chunkLoop_ok_length (path : String) (fileSize : Nat) :
    ∀ fuel idx pos, pos < fileSize → fileSize - pos ≤ fuel * CHUNK_SIZE →
    (chunkLoop allOk path fileSize idx pos fuel).1.length =
      (fileSize - pos - 1) / CHUNK_SIZE + 1 := by
  intro fuel
  induction fuel with
  | zero =>
    intro idx pos h1 h2
    rw [Nat.zero_mul] at h2
    omega
  | succ fuel ih =>
    intro idx pos h1 h2
    rw [Nat.succ_mul] at h2
    simp only [chunkLoop]
    rw [if_pos h1]
    by_cases hsmall : fileSize - pos ≤ CHUNK_SIZE
    · rw [if_pos hsmall, if_pos (show allOk idx = true from rfl),
        div_pred_zero (fileSize - pos) (by omega) hsmall]
      rfl
    · rw [if_neg hsmall, if_pos (show allOk idx = true from rfl)]
      have hpos : CHUNK_SIZE < fileSize - pos := Nat.lt_of_not_le hsmall
      have hrec := ih (idx + 1) (pos + CHUNK_SIZE) (by omega) (by omega)
      show (Call.sessionAppend (min CHUNK_SIZE (fileSize - pos)) pos ::
        (chunkLoop allOk path fileSize (idx + 1) (pos + CHUNK_SIZE) fuel).1).length = _
      rw [List.length_cons, hrec, Nat.sub_add_eq, div_pred_sub_chunk (fileSize - pos) hpos]

/-- The successful chunked loop ends with the finish call, which carries
the remaining partial chunk and the offset of all full chunks before it. -/
theorem chunkLoop_ok_getLast (path : String) (fileSize : Nat) :
    ∀ fuel idx pos, pos < fileSize → fileSize - pos ≤ fuel * CHUNK_SIZE →
    (chunkLoop allOk path fileSize idx pos fuel).1.getLast? =
      some (Call.sessionFinish ((fileSize - pos - 1) % CHUNK_SIZE + 1)
        (pos + CHUNK_SIZE * ((fileSize - pos - 1) / CHUNK_SIZE)) path) := by
  intro fuel
  induction fuel with
  | zero =>
    intro idx pos h1 h2
    rw [Nat.zero_mul] at h2
    omega
  | succ fuel ih =>
    intro idx pos h1 h2
    rw [Nat.succ_mul] at h2
    simp only [chunkLoop]
    rw [if_pos h1]
    by_cases hsmall : fileSize - pos ≤ CHUNK_SIZE
    · rw [if_pos hsmall, if_pos (show allOk idx = true from rfl)]
      have e1 : min CHUNK_SIZE (fileSize - pos) = (fileSize - pos - 1) % CHUNK_SIZE + 1 := by
        rw [Nat.min_eq_right hsmall,
          Nat.mod_eq_of_lt (show fileSize - pos - 1 < CHUNK_SIZE by omega)]
        omega
      have e2 : (fileSize - pos - 1) / CHUNK_SIZE = 0 :=
        div_pred_zero (fileSize - pos) (by omega) hsmall
      show ([Call.sessionFinish (min CHUNK_SIZE (fileSize - pos)) pos path]).getLast? = _
      rw [e1, e2]
      rfl
    · rw [if_neg hsmall, if_pos (show allOk idx = true from rfl)]
      have hpos : CHUNK_SIZE < fileSize - pos := Nat.lt_of_not_le hsmall
      have hrec := ih (idx + 1) (pos + CHUNK_SIZE) (by omega) (by omega)
      have hne : (chunkLoop allOk path fileSize (idx + 1) (pos + CHUNK_SIZE) fuel).1 ≠ [] := by
        intro h0
        rw [h0] at hrec
        simp at hrec
      show (Call.sessionAppend (min CHUNK_SIZE (fileSize - pos)) pos ::
        (chunkLoop allOk path fileSize (idx + 1) (pos + CHUNK_SIZE) fuel).1).getLast? = _
      rw [getLast_cons_ne _ _ hne, hrec, Nat.sub_add_eq,
        ← mod_pred_sub_chunk (fileSize - pos) hpos,
        div_pred_sub_chunk (fileSize - pos) hpos,
        show pos + CHUNK_SIZE + CHUNK_SIZE *
            ((fileSize - pos - CHUNK_SIZE - 1) / CHUNK_SIZE) =
          pos + CHUNK_SIZE * ((fileSize - pos - CHUNK_SIZE - 1) / CHUNK_SIZE + 1) from by ring]

/-- Whatever calls the server rejects, the chunked loop never issues a
call the successful loop would not issue, in the same order: its trace is
a prefix of the successful trace. -/
theorem chunkLoop_any_pre (script : Nat → Bool) (path : String) (fileSize : Nat) :
    ∀ fuel idx pos,
    (chunkLoop script path fileSize idx pos fuel).1 <+:
      (chunkLoop allOk path fileSize idx pos fuel).1 := by
  intro fuel
  induction fuel with
  | zero => intro idx pos; exact List.nil_prefix
  | succ fuel ih =>
    intro idx pos
    simp only [chunkLoop]
    by_cases h1 : pos < fileSize
    · rw [if_pos h1, if_pos h1]
      by_cases hsmall : fileSize - pos ≤ CHUNK_SIZE
      · rw [if_pos hsmall, if_pos hsmall, if_pos (show allOk idx = true from rfl)]
        cases hs : script idx
        · rw [if_neg (show ¬(false = true) from Bool.false_ne_true)]
        · rw [if_pos (show (true = true) from rfl)]
      · rw [if_neg hsmall, if_neg hsmall, if_pos (show allOk idx = true from rfl)]
        cases hs : script idx
        · rw [if_neg (show ¬(false = true) from Bool.false_ne_true)]
          exact ⟨(chunkLoop allOk path fileSize (idx + 1) (pos + CHUNK_SIZE) fuel).1, rfl⟩
        · rw [if_pos (show (true = true) from rfl)]
          exact (List.cons_prefix_cons).mpr ⟨rfl, ih (idx + 1) (pos + CHUNK_SIZE)⟩
    · rw [if_neg h1, if_neg h1]

/-- How the chunked loop ends when the first rejected remote call of the
upload is call number k (calls are numbered from the start call, number
0, so the loop handles calls from number idx on): a rejected append call
escapes as a raised ApiError and cuts the trace short; the rejected
finish call is caught and turns the result into None; a first failure
beyond the finish call never happens, and the loop runs as if all calls
succeeded. -/
theorem chunkLoop_firstFail (script : Nat → Bool) (path : String) (fileSize k : Nat)
    (hks : ∀ j, j < k → script j = true) (hkf : script k = false) :
    ∀ fuel idx pos, pos < fileSize → fileSize - pos ≤ fuel * CHUNK_SIZE → idx ≤ k →
    (k < idx + (fileSize - pos - 1) / CHUNK_SIZE →
      (chunkLoop script path fileSize idx pos fuel).2 = UploadResult.apiErrorRaised ∧
      (chunkLoop script path fileSize idx pos fuel).1.length = k - idx + 1) ∧
    (k = idx + (fileSize - pos - 1) / CHUNK_SIZE →
      (chunkLoop script path fileSize idx pos fuel).2 = UploadResult.returnedNone ∧
      (chunkLoop script path fileSize idx pos fuel).1.length =
        (fileSize - pos - 1) / CHUNK_SIZE + 1) ∧
    (idx + (fileSize - pos - 1) / CHUNK_SIZE < k →
      chunkLoop script path fileSize idx pos fuel =
        chunkLoop allOk path fileSize idx pos fuel) := by
  intro fuel
  induction fuel with
  | zero =>
    intro idx pos h1 h2 h3
    rw [Nat.zero_mul] at h2
    omega
  | succ fuel ih =>
    intro idx pos h1 h2 h3
    rw [Nat.succ_mul] at h2
    by_cases hsmall : fileSize - pos ≤ CHUNK_SIZE
    · have hd0 : (fileSize - pos - 1) / CHUNK_SIZE = 0 :=
        div_pred_zero (fileSize - pos) (by omega) hsmall
      rw [hd0]
      refine ⟨?_, ?_, ?_⟩
      · intro hlt
        exact absurd hlt (by omega)
      · intro heq
        have hik : idx = k := by omega
        rw [← hik] at hkf
        simp only [chunkLoop]
        rw [if_pos h1, if_pos hsmall, if_neg (by rw [hkf]; exact Bool.false_ne_true)]
        exact ⟨rfl, rfl⟩
      · intro hgt
        have hik : idx < k := by omega
        simp only [chunkLoop]
        rw [if_pos h1, if_pos h1, if_pos hsmall, if_pos hsmall, if_pos (hks idx hik),
          if_pos (show allOk idx = true from rfl)]
    · have hpos : CHUNK_SIZE < fileSize - pos := Nat.lt_of_not_le hsmall
      have hd1 : (fileSize - pos - 1) / CHUNK_SIZE =
          (fileSize - (pos + CHUNK_SIZE) - 1) / CHUNK_SIZE + 1 := by
        rw [Nat.sub_add_eq]
        exact div_pred_sub_chunk (fileSize - pos) hpos
      by_cases hik : idx = k
      · refine ⟨?_, ?_, ?_⟩
        · intro hlt
          rw [← hik] at hkf
          simp only [chunkLoop]
          rw [if_pos h1, if_neg hsmall, if_neg (by rw [hkf]; exact Bool.false_ne_true)]
          refine ⟨rfl, ?_⟩
          rw [← hik]
          exact (show (1 : Nat) = idx - idx + 1 by omega)
        · intro heq
          rw [hd1] at heq
          generalize (fileSize - (pos + CHUNK_SIZE) - 1) / CHUNK_SIZE = q at heq
          omega
        · intro hgt
          rw [hd1] at hgt
          generalize (fileSize - (pos + CHUNK_SIZE) - 1) / CHUNK_SIZE = q at hgt
          omega
      · have hikk : idx < k := lt_of_le_of_ne h3 hik
        have hsi : script idx = true := hks idx hikk
        obtain ⟨ha, hb, hc⟩ := ih (idx + 1) (pos + CHUNK_SIZE) (by omega) (by omega) (by omega)
        have hshift : idx + 1 + (fileSize - (pos + CHUNK_SIZE) - 1) / CHUNK_SIZE =
            idx + (fileSize - pos - 1) / CHUNK_SIZE := by
          rw [hd1]
          generalize (fileSize - (pos + CHUNK_SIZE) - 1) / CHUNK_SIZE = q
          omega
        refine ⟨?_, ?_, ?_⟩
        · intro hlt
          obtain ⟨hr1, hr2⟩ := ha (by rw [hshift]; exact hlt)
          simp only [chunkLoop]
          rw [if_pos h1, if_neg hsmall, if_pos hsi]
          refine ⟨hr1, ?_⟩
          show (Call.sessionAppend (min CHUNK_SIZE (fileSize - pos)) pos ::
            (chunkLoop script path fileSize (idx + 1) (pos + CHUNK_SIZE) fuel).1).length = _
          rw [List.length_cons, hr2]
          omega
        · intro heq
          obtain ⟨hr1, hr2⟩ := hb (by rw [hshift]; exact heq)
          simp only [chunkLoop]
          rw [if_pos h1, if_neg hsmall, if_pos hsi]
          refine ⟨hr1, ?_⟩
          show (Call.sessionAppend (min CHUNK_SIZE (fileSize - pos)) pos ::
            (chunkLoop script path fileSize (idx + 1) (pos + CHUNK_SIZE) fuel).1).length = _
          rw [List.length_cons, hr2, hd1]
        · intro hgt
          have hr := hc (by rw [hshift]; exact hgt)
          simp only [chunkLoop]
          rw [if_pos h1, if_pos h1, if_neg hsmall, if_neg hsmall, if_pos hsi,
            if_pos (show allOk idx = true from rfl), hr]

/-- The fuel upload passes to the chunked loop covers the whole file. -/
theorem upload_fuel_ok (size : Nat) :
    size - CHUNK_SIZE ≤ (size / CHUNK_SIZE + 2) * CHUNK_SIZE := by
  have hdm := Nat.div_add_mod size CHUNK_SIZE
  have hm : size % CHUNK_SIZE < CHUNK_SIZE := Nat.mod_lt size chunk_pos
  rw [Nat.succ_mul, Nat.succ_mul, Nat.mul_comm (size / CHUNK_SIZE) CHUNK_SIZE]
  omega

/-- A missing local path makes os.path.getmtime raise OSError before any
remote call is issued. -/
theorem upload_none_eq (script : Nat → Bool) (s : UpDownState) (sub name : String)
    (ow : Bool) :
    UpDown.upload script none s sub name ow =
      { calls := [], result := UploadResult.osErrorRaised } := rfl

/-- The directory branch of upload: one create-folder call whose failure
is caught and turned into the absent result. -/
theorem upload_dir_eq (script : Nat → Bool) (s : UpDownState) (sub name : String)
    (ow : Bool) (m : Nat) :
    UpDown.upload script (some (LocalEntry.dirEntry m)) s sub name ow =
      { calls := [Call.createFolder (UpDown.normalizePath s sub name)],
        result := if script 0 then UploadResult.receipt else UploadResult.returnedNone } := by
  simp only [UpDown.upload]
  cases hs : script 0
  · simp
  · simp

/-- The small-file branch of upload: one files-upload call carrying the
whole file, whose failure is caught and turned into the absent result. -/
theorem upload_small_eq (script : Nat → Bool) (s : UpDownState) (sub name : String)
    (ow : Bool) (size mtime : Nat) (hsize : size ≤ CHUNK_SIZE) :
    UpDown.upload script (some (LocalEntry.fileEntry size mtime)) s sub name ow =
      { calls := [Call.filesUpload size (UpDown.normalizePath s sub name)
          (if ow then WriteMode.overwrite else WriteMode.add) mtime],
        result := if script 0 then UploadResult.receipt else UploadResult.returnedNone } := by
  simp only [UpDown.upload]
  rw [if_pos hsize]
  cases hs : script 0
  · simp
  · simp

/-- The large-file branch when the start call succeeds: the start call
carries the first full chunk and the loop handles the rest. -/
theorem upload_large_eq (script : Nat → Bool) (s : UpDownState) (sub name : String)
    (ow : Bool) (size mtime : Nat) (hsize : CHUNK_SIZE < size) (h0 : script 0 = true) :
    UpDown.upload script (some (LocalEntry.fileEntry size mtime)) s sub name ow =
      { calls := Call.sessionStart CHUNK_SIZE ::
          (chunkLoop script (UpDown.normalizePath s sub name) size 1 CHUNK_SIZE
            (size / CHUNK_SIZE + 2)).1,
        result := (chunkLoop script (UpDown.normalizePath s sub name) size 1 CHUNK_SIZE
          (size / CHUNK_SIZE + 2)).2 } := by
  simp only [UpDown.upload]
  rw [if_neg (Nat.not_le_of_lt hsize), if_pos h0, Nat.min_eq_left (Nat.le_of_lt hsize)]

/-- The large-file branch when the start call fails: session-start sits
outside every try/except, so its ApiError escapes upload at once. -/
theorem upload_large_startFail (script : Nat → Bool) (s : UpDownState) (sub name : String)
    (ow : Bool) (size mtime : Nat) (hsize : CHUNK_SIZE < size) (h0 : script 0 = false) :
    UpDown.upload script (some (LocalEntry.fileEntry size mtime)) s sub name ow =
      { calls := [Call.sessionStart CHUNK_SIZE],
        result := UploadResult.apiErrorRaised } := by
  simp only [UpDown.upload]
  rw [if_neg (Nat.not_le_of_lt hsize), if_neg (by rw [h0]; exact Bool.false_ne_true),
    Nat.min_eq_left (Nat.le_of_lt hsize)]

theorem appends_formula (size : Nat) (h : CHUNK_SIZE < size) :
    (size - CHUNK_SIZE - 1) / CHUNK_SIZE = (size - 1) / CHUNK_SIZE - 1 := by
  rw [div_pred_sub_chunk size h]
  generalize (size - CHUNK_SIZE - 1) / CHUNK_SIZE = q
  omega

theorem finish_off_formula (size : Nat) (h : CHUNK_SIZE < size) :
    CHUNK_SIZE + CHUNK_SIZE * ((size - CHUNK_SIZE - 1) / CHUNK_SIZE) =
      CHUNK_SIZE * ((size - 1) / CHUNK_SIZE) := by
  rw [div_pred_sub_chunk size h]
  ring

theorem countStarts_cons_start (n : Nat) (l : List Call) :
    countStarts (Call.sessionStart n :: l) = countStarts l + 1 := by
  simp [countStarts, List.countP_cons, isStartCall]

theorem countAppends_cons_start (n : Nat) (l : List Call) :
    countAppends (Call.sessionStart n :: l) = countAppends l := by
  simp [countAppends, List.countP_cons, isAppendCall]

theorem countFinishes_cons_start (n : Nat) (l : List Call) :
    countFinishes (Call.sessionStart n :: l) = countFinishes l := by
  simp [countFinishes, List.countP_cons, isFinishCall]

/-- C1 (amended): for every regular file whose size is at most the 4 MiB
chunk threshold, upload issues exactly one remote transfer call (one
files-upload call carrying the whole file).  For every regular file whose
size exceeds the threshold, with every remote call accepted, upload
issues exactly one session-start call carrying a full chunk, A append
calls each carrying a full chunk, and one finish call carrying
((size - 1) mod chunkSize) + 1 bytes at offset chunkSize * ((size - 1) /
chunkSize), where A = (size - 1) / chunkSize - 1, that is, one fewer
append than the claim's N with N * chunkSize ≤ size < (N + 1) * chunkSize:
the session-start call already carries the first chunk. -/
theorem c1_amended_upload_call_counts (s : UpDownState) (sub name : String) (ow : Bool)
    (size mtime : Nat) :
    (size ≤ CHUNK_SIZE →
      (UpDown.upload allOk (some (LocalEntry.fileEntry size mtime)) s sub name ow).calls =
        [Call.filesUpload size (UpDown.normalizePath s sub name)
          (if ow then WriteMode.overwrite else WriteMode.add) mtime]) ∧
    (CHUNK_SIZE < size →
      countStarts (UpDown.upload allOk (some (LocalEntry.fileEntry size mtime))
        s sub name ow).calls = 1 ∧
      countAppends (UpDown.upload allOk (some (LocalEntry.fileEntry size mtime))
        s sub name ow).calls = (size - 1) / CHUNK_SIZE - 1 ∧
      countFinishes (UpDown.upload allOk (some (LocalEntry.fileEntry size mtime))
        s sub name ow).calls = 1 ∧
      (∀ c ∈ (UpDown.upload allOk (some (LocalEntry.fileEntry size mtime))
        s sub name ow).calls, isAppendCall c = true → callLen c = CHUNK_SIZE) ∧
      (UpDown.upload allOk (some (LocalEntry.fileEntry size mtime))
        s sub name ow).calls.head? = some (Call.sessionStart CHUNK_SIZE) ∧
      (UpDown.upload allOk (some (LocalEntry.fileEntry size mtime))
        s sub name ow).calls.getLast? = some (Call.sessionFinish
          ((size - 1) % CHUNK_SIZE + 1) (CHUNK_SIZE * ((size - 1) / CHUNK_SIZE))
          (UpDown.normalizePath s sub name)) ∧
      (UpDown.upload allOk (some (LocalEntry.fileEntry size mtime))
        s sub name ow).result = UploadResult.receipt) := by
  constructor
  · intro hsize
    rw [upload_small_eq allOk s sub name ow size mtime hsize]
  · intro hsize
    have hl := upload_large_eq allOk s sub name ow size mtime hsize rfl
    have hf : size - CHUNK_SIZE ≤ (size / CHUNK_SIZE + 2) * CHUNK_SIZE := upload_fuel_ok size
    have hcalls : (UpDown.upload allOk (some (LocalEntry.fileEntry size mtime))
        s sub name ow).calls = Call.sessionStart CHUNK_SIZE ::
          (chunkLoop allOk (UpDown.normalizePath s sub name) size 1 CHUNK_SIZE
            (size / CHUNK_SIZE + 2)).1 := by
      rw [hl]
    have hres : (UpDown.upload allOk (some (LocalEntry.fileEntry size mtime))
        s sub name ow).result = (chunkLoop allOk (UpDown.normalizePath s sub name) size 1
          CHUNK_SIZE (size / CHUNK_SIZE + 2)).2 := by
      rw [hl]
    refine ⟨?_, ?_, ?_, ?_, ?_, ?_, ?_⟩
    · rw [hcalls, countStarts_cons_start,
        chunkLoop_ok_starts (UpDown.normalizePath s sub name) size _ 1 CHUNK_SIZE hsize hf]
    · rw [hcalls, countAppends_cons_start,
        chunkLoop_ok_appends (UpDown.normalizePath s sub name) size _ 1 CHUNK_SIZE hsize hf]
      exact appends_formula size hsize
    · rw [hcalls, countFinishes_cons_start,
        chunkLoop_ok_finishes (UpDown.normalizePath s sub name) size _ 1 CHUNK_SIZE hsize hf]
    · intro c hc hac
      rw [hcalls] at hc
      rw [List.mem_cons] at hc
      rcases hc with hc | hc
      · rw [hc] at hac
        cases hac
      · exact chunkLoop_ok_append_lens (UpDown.normalizePath s sub name) size _ 1 CHUNK_SIZE
          hsize hf c hc hac
    · rw [hcalls]
      rfl
    · have hgl := chunkLoop_ok_getLast (UpDown.normalizePath s sub name) size
        (size / CHUNK_SIZE + 2) 1 CHUNK_SIZE hsize hf
      have hne : (chunkLoop allOk (UpDown.normalizePath s sub name) size 1 CHUNK_SIZE
          (size / CHUNK_SIZE + 2)).1 ≠ [] := by
        intro h0
        rw [h0] at hgl
        simp at hgl
      rw [hcalls, getLast_cons_ne _ _ hne, hgl,
        ← mod_pred_sub_chunk size hsize, finish_off_formula size hsize]
    · rw [hres]
      exact chunkLoop_ok_result (UpDown.normalizePath s sub name) size _ 1 CHUNK_SIZE hsize hf

/-- Witness for C1 (amended): a 100-byte file yields the single transfer
call, and the 9 MiB file of the spec's own scenario yields
(9437184 - 1) / CHUNK_SIZE - 1 = 1 append call. -/
theorem c1_amended_witness :
    (UpDown.upload allOk (some (LocalEntry.fileEntry 100 7)) sess0 "a" "b" false).calls =
      [Call.filesUpload 100 (UpDown.normalizePath sess0 "a" "b") WriteMode.add 7] ∧
    countAppends (UpDown.upload allOk (some (LocalEntry.fileEntry 9437184 0)) sess0 "a" "b"
      false).calls = (9437184 - 1) / CHUNK_SIZE - 1 :=
  ⟨(c1_amended_upload_call_counts sess0 "a" "b" false 100 7).1 (by decide),
   ((c1_amended_upload_call_counts sess0 "a" "b" false 9437184 0).2 (by decide)).2.1⟩

/-- C1 counterexample: uploading a 9437184-byte file issues exactly one
append call, while the claim's N with N * chunkSize ≤ size <
(N + 1) * chunkSize is 2, so the claim's append count fails at this
input. -/
theorem c1_counterexample :
    countAppends (UpDown.upload allOk (some (LocalEntry.fileEntry 9437184 0)) sess0
      "photos" "big.bin" false).calls = 1 ∧
    2 * CHUNK_SIZE ≤ 9437184 ∧ 9437184 < (2 + 1) * CHUNK_SIZE ∧
    ¬countAppends (UpDown.upload allOk (some (LocalEntry.fileEntry 9437184 0)) sess0
      "photos" "big.bin" false).calls = 2 := by
  decide

/-- C2 (amended): API failures are caught per-call only at the
create-folder call, the small-file upload call, and the session-finish
call, where upload logs them and returns the absent result None; an API
failure at the session-start call or at any session-append call is not
caught and escapes upload as a raised error.  In every case the failed
transfer is never retried: the calls upload issues under any script of
outcomes form a prefix of the successful run's calls, and the trace stops
right at the first failed call. -/
theorem c2_amended_error_containment (s : UpDownState) (sub name : String) (ow : Bool)
    (script : Nat → Bool) (mtime : Nat) :
    ((UpDown.upload script (some (LocalEntry.dirEntry mtime)) s sub name ow).result =
      if script 0 then UploadResult.receipt else UploadResult.returnedNone) ∧
    (∀ size, size ≤ CHUNK_SIZE →
      (UpDown.upload script (some (LocalEntry.fileEntry size mtime)) s sub name ow).result =
        if script 0 then UploadResult.receipt else UploadResult.returnedNone) ∧
    (∀ size, CHUNK_SIZE < size → script 0 = false →
      UpDown.upload script (some (LocalEntry.fileEntry size mtime)) s sub name ow =
        { calls := [Call.sessionStart CHUNK_SIZE],
          result := UploadResult.apiErrorRaised }) ∧
    (∀ size k, CHUNK_SIZE < size → 1 ≤ k → (∀ j, j < k → script j = true) →
      script k = false →
      (k ≤ (size - 1) / CHUNK_SIZE - 1 →
        (UpDown.upload script (some (LocalEntry.fileEntry size mtime))
          s sub name ow).result = UploadResult.apiErrorRaised ∧
        (UpDown.upload script (some (LocalEntry.fileEntry size mtime))
          s sub name ow).calls.length = k + 1) ∧
      (k = (size - 1) / CHUNK_SIZE →
        (UpDown.upload script (some (LocalEntry.fileEntry size mtime))
          s sub name ow).result = UploadResult.returnedNone ∧
        (UpDown.upload script (some (LocalEntry.fileEntry size mtime))
          s sub name ow).calls.length = (size - 1) / CHUNK_SIZE + 1) ∧
      ((size - 1) / CHUNK_SIZE < k →
        UpDown.upload script (some (LocalEntry.fileEntry size mtime)) s sub name ow =
          UpDown.upload allOk (some (LocalEntry.fileEntry size mtime)) s sub name ow)) ∧
    (∀ stat : Option LocalEntry,
      (UpDown.upload script stat s sub name ow).calls <+:
        (UpDown.upload allOk stat s sub name ow).calls) := by
  refine ⟨?_, ?_, ?_, ?_, ?_⟩
  · rw [upload_dir_eq script s sub name ow mtime]
  · intro size hsz
    rw [upload_small_eq script s sub name ow size mtime hsz]
  · intro size hsz h0
    exact upload_large_startFail script s sub name ow size mtime hsz h0
  · intro size k hsz hk1 hks hkf
    have h0 : script 0 = true := hks 0 (by omega)
    have hl := upload_large_eq script s sub name ow size mtime hsz h0
    have hf := upload_fuel_ok size
    have hcalls : (UpDown.upload script (some (LocalEntry.fileEntry size mtime))
        s sub name ow).calls = Call.sessionStart CHUNK_SIZE ::
          (chunkLoop script (UpDown.normalizePath s sub name) size 1 CHUNK_SIZE
            (size / CHUNK_SIZE + 2)).1 := by
      rw [hl]
    have hres : (UpDown.upload script (some (LocalEntry.fileEntry size mtime))
        s sub name ow).result = (chunkLoop script (UpDown.normalizePath s sub name) size 1
          CHUNK_SIZE (size / CHUNK_SIZE + 2)).2 := by
      rw [hl]
    obtain ⟨ha, hb, hc⟩ := chunkLoop_firstFail script (UpDown.normalizePath s sub name)
      size k hks hkf (size / CHUNK_SIZE + 2) 1 CHUNK_SIZE hsz hf (by omega)
    have hd1 : 1 + (size - CHUNK_SIZE - 1) / CHUNK_SIZE = (size - 1) / CHUNK_SIZE := by
      rw [div_pred_sub_chunk size hsz, Nat.add_comm]
    refine ⟨?_, ?_, ?_⟩
    · intro hle
      have hlt : k < 1 + (size - CHUNK_SIZE - 1) / CHUNK_SIZE := by
        rw [← hd1] at hle
        generalize (size - CHUNK_SIZE - 1) / CHUNK_SIZE = q at hle ⊢
        omega
      obtain ⟨hr1, hr2⟩ := ha hlt
      constructor
      · rw [hres]
        exact hr1
      · rw [hcalls, List.length_cons, hr2]
        omega
    · intro heq
      obtain ⟨hr1, hr2⟩ := hb (by rw [hd1]; exact heq)
      constructor
      · rw [hres]
        exact hr1
      · rw [hcalls, List.length_cons, hr2, ← hd1]
        generalize (size - CHUNK_SIZE - 1) / CHUNK_SIZE = q
        omega
    · intro hgt
      have hr := hc (by rw [hd1]; exact hgt)
      rw [upload_large_eq script s sub name ow size mtime hsz h0,
        upload_large_eq allOk s sub name ow size mtime hsz rfl, hr]
  · intro stat
    match stat with
    | none => exact List.nil_prefix
    | some (LocalEntry.dirEntry m) =>
      rw [upload_dir_eq script s sub name ow m, upload_dir_eq allOk s sub name ow m]
    | some (LocalEntry.fileEntry size m) =>
      by_cases hsz : size ≤ CHUNK_SIZE
      · rw [upload_small_eq script s sub name ow size m hsz,
          upload_small_eq allOk s sub name ow size m hsz]
      · have hsz2 : CHUNK_SIZE < size := Nat.lt_of_not_le hsz
        cases h0 : script 0
        · rw [upload_large_startFail script s sub name ow size m hsz2 h0,
            upload_large_eq allOk s sub name ow size m hsz2 rfl]
          exact ⟨(chunkLoop allOk (UpDown.normalizePath s sub name) size 1 CHUNK_SIZE
            (size / CHUNK_SIZE + 2)).1, rfl⟩
        · rw [upload_large_eq script s sub name ow size m hsz2 h0,
            upload_large_eq allOk s sub name ow size m hsz2 rfl]
          exact (List.cons_prefix_cons).mpr ⟨rfl,
            chunkLoop_any_pre script (UpDown.normalizePath s sub name) size
              (size / CHUNK_SIZE + 2) 1 CHUNK_SIZE⟩

/-- Witness for C2 (amended): a failing create-folder call is caught and
upload returns None, while a failing session-start call on a 9 MiB file
escapes as a raised ApiError after exactly that one call. -/
theorem c2_amended_witness :
    (UpDown.upload failAll (some (LocalEntry.dirEntry 3)) sess0 "a" "b" false).result =
      (if failAll 0 then UploadResult.receipt else UploadResult.returnedNone) ∧
    UpDown.upload failAll (some (LocalEntry.fileEntry 9437184 0)) sess0 "a" "b" false =
      { calls := [Call.sessionStart CHUNK_SIZE], result := UploadResult.apiErrorRaised } :=
  ⟨(c2_amended_error_containment sess0 "a" "b" false failAll 3).1,
   (c2_amended_error_containment sess0 "a" "b" false failAll 0).2.2.1 9437184 (by decide) rfl⟩

/-- C2 counterexample: on a 9437184-byte file whose session-start call
the server rejects, upload ends with a raised ApiError instead of the
caught-and-logged None the claim requires, so the failure escapes to the
caller. -/
theorem c2_counterexample :
    (UpDown.upload failAll (some (LocalEntry.fileEntry 9437184 0)) sess0 "photos"
      "big.bin" false).result = UploadResult.apiErrorRaised ∧
    UploadResult.apiErrorRaised ≠ UploadResult.returnedNone := by
  constructor
  · rfl
  · intro h
    cases h

/-- C10: upload reads the local modification time (os.path.getmtime)
before the directory/file dispatch, so a local path that does not exist
or cannot be stat-ed raises OSError out of upload before any remote
operation: the remote trace is empty and remote state unchanged. -/
theorem c10_missing_local_path (script : Nat → Bool) (s : UpDownState)
    (sub name : String) (ow : Bool) :
    (UpDown.upload script none s sub name ow).calls = [] ∧
    (UpDown.upload script none s sub name ow).result = UploadResult.osErrorRaised :=
  ⟨rfl, rfl⟩

/-- C6: uploading the 9437184-byte file with the 4 MiB chunk threshold
issues one session-start call carrying 4194304 bytes, one append call
carrying 4194304 bytes, and one finish call carrying 1048576 bytes, and
the tracked byte offset - the file position f.tell(), from which the code
sets the session cursor's offset - takes the values 0, 4194304, 8388608
and 9437184 in that order. -/
theorem c6_nine_mib_scenario :
    (UpDown.upload allOk (some (LocalEntry.fileEntry 9437184 77)) sess0 "photos"
      "big.bin" false).calls =
      [Call.sessionStart 4194304,
       Call.sessionAppend 4194304 4194304,
       Call.sessionFinish 1048576 8388608 (UpDown.normalizePath sess0 "photos" "big.bin")] ∧
    tellTrace 0 (UpDown.upload allOk (some (LocalEntry.fileEntry 9437184 77)) sess0 "photos"
      "big.bin" false).calls = [0, 4194304, 8388608, 9437184] ∧
    (UpDown.upload allOk (some (LocalEntry.fileEntry 9437184 77)) sess0 "photos"
      "big.bin" false).result = UploadResult.receipt :=
  ⟨rfl, rfl, rfl⟩

/-- C3: the watch-mode handlers evaluate re.match(self.excludes, name),
but no import of updown.py binds the name re, so every file-creation
event and every non-directory modification event raises NameError before
any upload is invoked; only the directory test of on_modified precedes
the lookup, so a modification event on a directory is dropped without an
upload and without an error. -/
theorem c3_handlers_raise_nameerror (s : UpDownState) (srcPath : String) :
    UpDown.on_created s srcPath = Except.error PyError.nameError ∧
    UpDown.on_modified s srcPath false = Except.error PyError.nameError ∧
    UpDown.on_modified s srcPath true = Except.ok none := by
  refine ⟨?_, ?_, ?_⟩
  · simp [UpDown.on_created, evalReMatch, re_unbound]
  · simp [UpDown.on_modified, evalReMatch, re_unbound]
  · simp [UpDown.on_modified]

/-- C5: on the failing input - an ignore file holding the single pattern
line *.txt - loadDropboxIgnore raises NameError (fnmatch is never
imported), so no ignore predicate is ever produced; only with the ignore
file absent does loading return, and then the excludes regex matches no
name at all. -/
theorem c5_ignore_predicate_unrealizable :
    loadDropboxIgnore (fun _ => FsEntry.file ["*.txt"]) "/data" ".dropboxignore" =
      Except.error PyError.nameError ∧
    loadDropboxIgnore (fun _ => FsEntry.absent) "/data" ".dropboxignore" =
      Except.ok defaultExcludes ∧
    reMatchDollarDot "a.txt" = false :=
  ⟨rfl, rfl, rfl⟩

/-- C9: whenever the file at the computed ignore path exists and holds at
least one pattern line, loadDropboxIgnore raises NameError (it evaluates
fnmatch.translate but fnmatch is never imported), so pattern compilation
fails and UpDown construction aborts; the absent, directory and
empty-file cases return normally with the match-nothing regex, under
which every name is kept. -/
theorem c9_nonempty_ignore_aborts (readFs : String → FsEntry) (folder di : String)
    (t1 t2 t3 : PyDateTime) (l : String) (ls : List String) (nm : String) :
    (readFs (ignoreFileLocation folder di) = FsEntry.file (l :: ls) →
      loadDropboxIgnore readFs folder di = Except.error PyError.nameError ∧
      UpDown.init folder di readFs t1 t2 t3 = Except.error PyError.nameError) ∧
    (readFs (ignoreFileLocation folder di) = FsEntry.file [] →
      loadDropboxIgnore readFs folder di = Except.ok defaultExcludes) ∧
    (readFs (ignoreFileLocation folder di) = FsEntry.dir →
      loadDropboxIgnore readFs folder di = Except.ok defaultExcludes) ∧
    (readFs (ignoreFileLocation folder di) = FsEntry.absent →
      loadDropboxIgnore readFs folder di = Except.ok defaultExcludes) ∧
    reMatchDollarDot nm = false := by
  refine ⟨?_, ?_, ?_, ?_, reMatchDollarDot_false nm⟩
  · intro h
    have hload : loadDropboxIgnore readFs folder di = Except.error PyError.nameError := by
      simp only [loadDropboxIgnore]
      rw [h]
      rfl
    refine ⟨hload, ?_⟩
    simp only [UpDown.init]
    rw [hload]
  · intro h
    simp only [loadDropboxIgnore]
    rw [h]
    rfl
  · intro h
    simp only [loadDropboxIgnore]
    rw [h]
    rfl
  · intro h
    simp only [loadDropboxIgnore]
    rw [h]
    rfl

/-- C8: the entry point passes rootdir as the dropboxignore argument, so
the path loadDropboxIgnore reads is os.path.join(remoteFolderName,
rootdir); for an absolute rootdir that join is the root directory itself,
never rootDir/.dropboxignore, so a pattern file placed at
/data/.dropboxignore is silently ignored: loading finds a directory at
the computed path and returns the match-nothing excludes. -/
theorem c8_ignore_path_mismatch :
    ignoreFileLocation "" "/data" = "/data" ∧
    ignoreFileLocation "myfolder" "/data" = "/data" ∧
    pyPosixJoin "/data" [".dropboxignore"] = "/data/.dropboxignore" ∧
    fsC8 (pyPosixJoin "/data" [".dropboxignore"]) = FsEntry.file ["*.txt"] ∧
    loadDropboxIgnore fsC8 "" "/data" = Except.ok defaultExcludes ∧
    mainInit "" "/data" fsC8 t0 t0 t0 =
      Except.ok (mkState "" "/data" defaultExcludes t0 t0 t0) :=
  ⟨rfl, rfl, rfl, rfl, rfl, rfl⟩

/-- Inverting a successful construction: the stored fields are exactly
the renderings of the three clock readings. -/
theorem init_ok_fields (folder di : String) (readFs : String → FsEntry)
    (t1 t2 t3 : PyDateTime) (st : UpDownState)
    (h : UpDown.init folder di readFs t1 t2 t3 = Except.ok st) :
    ∃ excl, st = mkState folder di excl t1 t2 t3 := by
  simp only [UpDown.init] at h
  cases hload : loadDropboxIgnore readFs folder di with
  | error e =>
    rw [hload] at h
    cases h
  | ok excl =>
    rw [hload] at h
    have h3 : Except.ok (mkState folder di excl t1 t2 t3) = Except.ok st := h
    injection h3 with h4
    exact ⟨excl, h4.symm⟩

/-- C4 (amended): timestamp, year and month are computed once at
construction, from three successive clock readings t1, t2, t3, and the
state is never mutated afterwards; year and month agree with the
startTimestamp exactly when the second and third readings did not cross a
year or month boundary after the first (the code reads the clock three
times, so across a boundary they may disagree); the /year/month/timestamp
prefix db_folder is frozen at construction, and every remote path
produced during the run - normalizePath of a relative subfolder and a
slash-free name - begins with that frozen prefix. -/
theorem c4_amended_frozen_session (folder di : String) (readFs : String → FsEntry)
    (t1 t2 t3 : PyDateTime) (st : UpDownState)
    (h : UpDown.init folder di readFs t1 t2 t3 = Except.ok st) :
    (st.timestamp = strftimeTimestamp t1 ∧ st.year = strftimeYear t2 ∧
      st.month = strftimeMonth t3 ∧
      st.db_folder.data = '/' :: pad4Chars t2.year ++ '/' :: pad2Chars t3.month ++
        '/' :: strftimeTimestampChars t1) ∧
    (t2.year = t1.year → st.year = strftimeYear t1) ∧
    (t3.month = t1.month → st.month = strftimeMonth t1) ∧
    (∀ sub name : String, sub.data.head? ≠ some '/' → name.data.head? ≠ some '/' →
      st.db_folder.data <+: (UpDown.normalizePath st sub name).data) := by
  obtain ⟨excl, hst⟩ := init_ok_fields folder di readFs t1 t2 t3 st h
  subst hst
  refine ⟨⟨rfl, rfl, rfl, mkState_db_data folder di excl t1 t2 t3⟩, ?_, ?_, ?_⟩
  · intro hy2
    exact congrArg (fun n => String.mk (pad4Chars n)) hy2
  · intro hm2
    exact congrArg (fun n => String.mk (pad2Chars n)) hm2
  · intro sub name hsub hname
    exact normalizePath_db_pre folder di excl t1 t2 t3 sub name hsub hname

/-- Witness for C4 (amended): a concrete construction whose three clock
readings coincide stores the year rendered from the first reading. -/
theorem c4_amended_witness :
    (mkState "" "/r" defaultExcludes t0 t0 t0).year = strftimeYear t0 ∧
    (mkState "" "/r" defaultExcludes t0 t0 t0).db_folder.data <+:
      (UpDown.normalizePath (mkState "" "/r" defaultExcludes t0 t0 t0) "a" "b.txt").data :=
  ⟨(c4_amended_frozen_session "" "/r" fsAbsent t0 t0 t0
      (mkState "" "/r" defaultExcludes t0 t0 t0) rfl).2.1 rfl,
   (c4_amended_frozen_session "" "/r" fsAbsent t0 t0 t0
      (mkState "" "/r" defaultExcludes t0 t0 t0) rfl).2.2.2 "a" "b.txt"
      (by decide) (by decide)⟩

/-- C4 counterexample: a construction across the 2024/2025 New Year
boundary (timestamp read at 2024-12-31 23:59:59; year and month read at
2025-01-01 00:00:00) stores year 2025 and month 01 while the timestamp
begins with 2024, so year and month are not derived from (consistent
with) the startTimestamp. -/
theorem c4_counterexample :
    UpDown.init "" "/r" fsAbsent tDec tJan tJan =
      Except.ok (mkState "" "/r" defaultExcludes tDec tJan tJan) ∧
    (mkState "" "/r" defaultExcludes tDec tJan tJan).timestamp = "2024-12-31_23-59-59" ∧
    (mkState "" "/r" defaultExcludes tDec tJan tJan).year = "2025" ∧
    (mkState "" "/r" defaultExcludes tDec tJan tJan).month = "01" ∧
    (mkState "" "/r" defaultExcludes tDec tJan tJan).timestamp.take 4 = "2024" ∧
    (mkState "" "/r" defaultExcludes tDec tJan tJan).year ≠
      (mkState "" "/r" defaultExcludes tDec tJan tJan).timestamp.take 4 := by
  refine ⟨rfl, rfl, rfl, rfl, rfl, ?_⟩
  decide

/-- C7: normalizePath is a pure total function of the frozen session
state and its two inputs: it reads only db_folder, so identical inputs in
one session yield the identical path; on every constructed session the
posix join receives at least one component (so the Python call cannot
fail), and even degenerate inputs produce a well-formed path - nonempty
and absolute; and two sessions whose first clock readings render
different timestamps have db_folder prefixes that differ, neither being a
prefix of the other. -/
theorem c7_normalizePath_pure (sub name : String) :
    (∀ s1 s2 : UpDownState, s1.db_folder = s2.db_folder →
      UpDown.normalizePath s1 sub name = UpDown.normalizePath s2 sub name) ∧
    (∀ folder di excl t1 t2 t3,
      ([(mkState folder di excl t1 t2 t3).db_folder, replaceSep sub, name].filter
        (fun p => p != "")) ≠ [] ∧
      (UpDown.normalizePath (mkState folder di excl t1 t2 t3) sub name).data.head? =
        some '/' ∧
      UpDown.normalizePath (mkState folder di excl t1 t2 t3) sub name ≠ "") ∧
    (∀ f1 d1 e1 t1 t2 t3 f2 d2 e2 u1 u2 u3,
      strftimeTimestamp t1 ≠ strftimeTimestamp u1 →
      (mkState f1 d1 e1 t1 t2 t3).db_folder ≠ (mkState f2 d2 e2 u1 u2 u3).db_folder ∧
      ¬(mkState f1 d1 e1 t1 t2 t3).db_folder.data <+:
        (mkState f2 d2 e2 u1 u2 u3).db_folder.data ∧
      ¬(mkState f2 d2 e2 u1 u2 u3).db_folder.data <+:
        (mkState f1 d1 e1 t1 t2 t3).db_folder.data) := by
  refine ⟨?_, ?_, ?_⟩
  · intro s1 s2 h12
    unfold UpDown.normalizePath
    rw [h12]
  · intro folder di excl t1 t2 t3
    have hdb := mkState_db_ne_empty folder di excl t1 t2 t3
    have hdbhead : (mkState folder di excl t1 t2 t3).db_folder.data.head? = some '/' := by
      rw [mkState_db_data]
      rfl
    have habs : (UpDown.normalizePath (mkState folder di excl t1 t2 t3)
        sub name).data.head? = some '/' := by
      rw [normalizePath_eq_join _ _ _ hdb]
      exact foldl_pyJoin_abs _ _ hdbhead
    refine ⟨?_, habs, ?_⟩
    · have hmem : (mkState folder di excl t1 t2 t3).db_folder ∈
          ([(mkState folder di excl t1 t2 t3).db_folder, replaceSep sub, name].filter
            (fun p => p != "")) :=
        List.mem_filter.mpr ⟨List.mem_cons_self _ _, bne_iff_ne.mpr hdb⟩
      intro hfil
      rw [hfil] at hmem
      exact absurd hmem (List.not_mem_nil _)
    · intro h0
      rw [h0] at habs
      simp at habs
  · intro f1 d1 e1 t1 t2 t3 f2 d2 e2 u1 u2 u3 hts
    refine ⟨db_ne_of_ts_ne f1 d1 e1 t1 t2 t3 f2 d2 e2 u1 u2 u3 hts, ?_, ?_⟩
    · intro hpre
      have heq := hpre.eq_of_length
        (by rw [db_data_length f1 d1 e1 t1 t2 t3, db_data_length f2 d2 e2 u1 u2 u3])
      exact db_ne_of_ts_ne f1 d1 e1 t1 t2 t3 f2 d2 e2 u1 u2 u3 hts (congrArg String.mk heq)
    · intro hpre
      have heq := hpre.eq_of_length
        (by rw [db_data_length f1 d1 e1 t1 t2 t3, db_data_length f2 d2 e2 u1 u2 u3])
      exact db_ne_of_ts_ne f1 d1 e1 t1 t2 t3 f2 d2 e2 u1 u2 u3 hts
        (congrArg String.mk heq.symm)

/-- Witness for C7: a concrete path is absolute, and the db_folder
prefixes of two sessions an instant apart across New Year differ. -/
theorem c7_witness :
    (UpDown.normalizePath (mkState "" "/r" defaultExcludes t0 t0 t0)
      "a" "b.txt").data.head? = some '/' ∧
    (mkState "x" "/r" defaultExcludes tDec tDec tDec).db_folder ≠
      (mkState "" "/q" defaultExcludes tJan tJan tJan).db_folder :=
  ⟨((c7_normalizePath_pure "a" "b.txt").2.1 "" "/r" defaultExcludes t0 t0 t0).2.1,
   ((c7_normalizePath_pure "a" "b.txt").2.2 "x" "/r" defaultExcludes tDec tDec tDec
     "" "/q" defaultExcludes tJan tJan tJan (by decide)).1⟩

/-- Witness for C9: a concrete one-pattern ignore file aborts the load
and the construction with NameError. -/
theorem c9_witness :
    loadDropboxIgnore (fun _ => FsEntry.file ["*.txt"]) "/r" ".dropboxignore" =
      Except.error PyError.nameError ∧
    UpDown.init "/r" ".dropboxignore" (fun _ => FsEntry.file ["*.txt"]) t0 t0 t0 =
      Except.error PyError.nameError :=
  (c9_nonempty_ignore_aborts (fun _ => FsEntry.file ["*.txt"]) "/r" ".dropboxignore"
    t0 t0 t0 "*.txt" [] "x").1 rfl

end DbSync
